import Mathlib

/-!
Verification of the Navit terminal file explorer core: the session state
machine (reducer), the asynchronous directory/preview coordinator, the file
operation orchestrator, the directory listing sort, and the command
interpreter, shallowly embedded from the TypeScript sources
(`src/state/AppState.tsx`, `src/App.tsx`, `src/utils/fileSystem.ts`,
`src/commands/index.ts`).
-/

namespace Navit

/-- One file-or-directory record, from `FileEntry` in `src/utils/fileSystem.ts`.
Metadata fields that no studied operation reads (size, dates, permissions,
extension, git status) are omitted. -/
structure FileEntry where
  name : String
  path : String
  isDirectory : Bool
  isSymlink : Bool := false
  isHidden : Bool := false
deriving DecidableEq, Repr

/-- Git file status, from `GitStatus` in `src/utils/fileSystem.ts`. -/
inductive GitStatus where
  | modified | added | deleted | renamed | untracked | staged | clean
deriving DecidableEq, Repr

/-- Git info for a directory, from `GitInfo` in `src/utils/fileSystem.ts`.
The `Map<string, GitStatus>` is embedded as an association list. -/
structure GitInfo where
  isRepo : Bool
  branch : Option String := none
  status : List (String × GitStatus) := []
  isClean : Option Bool := none
deriving DecidableEq, Repr

/-- Application modes, from `AppMode` in `src/state/AppState.tsx`. -/
inductive AppMode where
  | normal | search | deepSearch | command | confirm | input | help | bookmarks
deriving DecidableEq, Repr

/-- Clipboard operation tag (`'copy' | 'cut'`). -/
inductive ClipOp where
  | copy | cut
deriving DecidableEq, Repr

/-- Pending clipboard record, from `ClipboardData` in `src/state/AppState.tsx`. -/
structure ClipboardData where
  operation : ClipOp
  files : List FileEntry
deriving DecidableEq, Repr

/-- The session state, from `AppState` in `src/state/AppState.tsx`.
The JavaScript `Set<string>` becomes a `Finset String`; numbers that the code
manipulates with unclamped arithmetic (`selectedIndex`, offsets) become `Int`.
The config/theme objects and the stored input/confirm callbacks are outside
the studied claims and are omitted. -/
structure AppState where
  currentPath : String
  entries : List FileEntry
  selectedIndex : Int
  scrollOffset : Int
  selectedFiles : Finset String
  clipboard : Option ClipboardData
  mode : AppMode
  inputValue : String
  searchQuery : String
  filteredEntries : List FileEntry
  gitInfo : Option GitInfo
  loading : Bool
  error : Option String
  message : Option String
  lastDirectory : String
  previewContent : String
  previewIsBinary : Bool
  previewScrollOffset : Int

/-- Reducer actions, from the `Action` union in `src/state/AppState.tsx`.
`SET_INPUT` / `SET_CONFIRM` (which carry function callbacks), `SET_CONFIG`,
`TOGGLE_TERMINAL` and `TOGGLE_HIDDEN` (which touch only omitted fields) are
not modelled. -/
inductive Action where
  | SET_PATH (path : String) (entries : List FileEntry)
  | SET_ENTRIES (entries : List FileEntry)
  | SET_SELECTED_INDEX (index : Int)
  | SET_SCROLL_OFFSET (offset : Int)
  | TOGGLE_FILE_SELECTION (path : String)
  | SELECT_ALL
  | CLEAR_SELECTION
  | SET_CLIPBOARD (clipboard : Option ClipboardData)
  | SET_MODE (mode : AppMode)
  | SET_SEARCH_QUERY (query : String)
  | SET_FILTERED_ENTRIES (entries : List FileEntry)
  | SET_GIT_INFO (info : Option GitInfo)
  | SET_LOADING (loading : Bool)
  | SET_ERROR (error : Option String)
  | SET_MESSAGE (message : Option String)
  | SET_PREVIEW (content : String) (isBinary : Bool)
  | SET_PREVIEW_SCROLL (offset : Int)

/-- JavaScript `s.toLowerCase()`, embedded characterwise. -/
def strLower (s : String) : String :=
  ⟨s.data.map Char.toLower⟩

/-- `need.isPrefixOf hay || containsSub hay.tail need`: Boolean substring
test on character lists, embedding JavaScript `String.prototype.includes`. -/
def containsSub (hay need : List Char) : Bool :=
  match hay with
  | [] => need.isEmpty
  | c :: t => need.isPrefixOf (c :: t) || containsSub t need

/-- JavaScript `s.includes(sub)`. -/
def strIncludes (s sub : String) : Bool :=
  containsSub s.data sub.data

/-- The search filter used at `SET_ENTRIES` and `SET_SEARCH_QUERY`:
`e.name.toLowerCase().includes(query.toLowerCase())`. -/
def nameMatches (query : String) (e : FileEntry) : Bool :=
  strIncludes (strLower e.name) (strLower query)

/-- The reducer, from `appReducer` in `src/state/AppState.tsx`.
JavaScript string truthiness (`action.query ? _ : _`) is embedded as an
emptiness test. -/
def appReducer (state : AppState) (action : Action) : AppState :=
  match action with
  | .SET_PATH path entries =>
      { state with
        currentPath := path
        entries := entries
        filteredEntries := entries
        selectedIndex := 0
        scrollOffset := 0
        lastDirectory := path
        searchQuery := ""
        error := none }
  | .SET_ENTRIES entries =>
      { state with
        entries := entries
        filteredEntries :=
          if state.searchQuery = "" then entries
          else entries.filter (nameMatches state.searchQuery) }
  | .SET_SELECTED_INDEX index => { state with selectedIndex := index }
  | .SET_SCROLL_OFFSET offset => { state with scrollOffset := offset }
  | .TOGGLE_FILE_SELECTION path =>
      if path ∈ state.selectedFiles then
        { state with selectedFiles := state.selectedFiles.erase path }
      else
        { state with selectedFiles := insert path state.selectedFiles }
  | .SELECT_ALL =>
      { state with selectedFiles := (state.filteredEntries.map FileEntry.path).toFinset }
  | .CLEAR_SELECTION => { state with selectedFiles := ∅ }
  | .SET_CLIPBOARD clipboard => { state with clipboard := clipboard }
  | .SET_MODE mode =>
      { state with
        mode := mode
        inputValue := ""
        searchQuery := if mode = .normal then "" else state.searchQuery }
  | .SET_SEARCH_QUERY query =>
      { state with
        searchQuery := query
        filteredEntries :=
          if query = "" then state.entries
          else state.entries.filter (nameMatches query)
        selectedIndex := 0 }
  | .SET_FILTERED_ENTRIES entries =>
      { state with filteredEntries := entries, selectedIndex := 0 }
  | .SET_GIT_INFO info => { state with gitInfo := info }
  | .SET_LOADING loading => { state with loading := loading }
  | .SET_ERROR error => { state with error := error, loading := false }
  | .SET_MESSAGE message => { state with message := message }
  | .SET_PREVIEW content isBinary =>
      { state with
        previewContent := content
        previewIsBinary := isBinary
        previewScrollOffset := 0 }
  | .SET_PREVIEW_SCROLL offset => { state with previewScrollOffset := offset }

/-- Initial state factory, from `createInitialState` in `src/state/AppState.tsx`
(config/theme fields omitted). -/
def createInitialState (startPath : String) : AppState :=
  { currentPath := startPath
    entries := []
    selectedIndex := 0
    scrollOffset := 0
    selectedFiles := ∅
    clipboard := none
    mode := .normal
    inputValue := ""
    searchQuery := ""
    filteredEntries := []
    gitInfo := none
    loading := true
    error := none
    message := none
    lastDirectory := startPath
    previewContent := ""
    previewIsBinary := false
    previewScrollOffset := 0 }

/-!
The asynchronous coordinator around the reducer, from `src/App.tsx`.
Directory reads, git-status queries and preview loads are in-flight requests
keyed by the path they were issued for; the filesystem and git collaborators
are environments `String → _`. Resolving a request replays, in order, exactly
the dispatches the corresponding `async` continuation performs.
-/

/-- The session plus the multiset of in-flight asynchronous requests. -/
structure SysState where
  app : AppState
  pendingDir : List String
  pendingGit : List String
  pendingPreview : List String

/-- `loadDirectory(dirPath)` up to its first `await` (App.tsx lines 73-77):
dispatches `SET_LOADING true` and starts `readDirectory(dirPath, ...)`. -/
def issueNavigate (s : SysState) (dirPath : String) : SysState :=
  { s with
    app := appReducer s.app (.SET_LOADING true)
    pendingDir := s.pendingDir ++ [dirPath] }

/-- The rest of `loadDirectory(dirPath)` when `readDirectory` succeeds
(App.tsx lines 78-91): dispatches `SET_PATH` with the listing, starts the
background `getGitInfo(dirPath)`, then dispatches `SET_LOADING false`.
No staleness check is performed before the dispatches. -/
def resolveNavigate (fs : String → List FileEntry) (s : SysState) (dirPath : String) : SysState :=
  if dirPath ∈ s.pendingDir then
    { app := appReducer (appReducer s.app (.SET_PATH dirPath (fs dirPath))) (.SET_LOADING false)
      pendingDir := s.pendingDir.erase dirPath
      pendingGit := s.pendingGit ++ [dirPath]
      pendingPreview := s.pendingPreview }
  else s

/-- The rest of `loadDirectory(dirPath)` when `readDirectory` throws
(App.tsx lines 84-91): dispatches `SET_ERROR` then `SET_LOADING false`. -/
def resolveNavigateFailure (s : SysState) (dirPath : String) (msg : String) : SysState :=
  if dirPath ∈ s.pendingDir then
    { s with
      app := appReducer (appReducer s.app (.SET_ERROR (some msg))) (.SET_LOADING false)
      pendingDir := s.pendingDir.erase dirPath }
  else s

/-- The `getGitInfo(dirPath).then(...)` continuation (App.tsx lines 81-83):
dispatches `SET_GIT_INFO` unconditionally. -/
def resolveGit (git : String → GitInfo) (s : SysState) (dirPath : String) : SysState :=
  if dirPath ∈ s.pendingGit then
    { s with
      app := appReducer s.app (.SET_GIT_INFO (some (git dirPath)))
      pendingGit := s.pendingGit.erase dirPath }
  else s

/-- `refresh()` (App.tsx lines 109-111) starts `loadDirectory(state.currentPath)`. -/
def startRefresh (s : SysState) : SysState :=
  issueNavigate s s.app.currentPath

/-- `loadPreview(entry)` up to its `await` (App.tsx lines 95-104): a directory
short-circuits to an empty non-binary preview; otherwise
`getFilePreview(entry.path, ...)` is started. -/
def issuePreview (s : SysState) (entry : FileEntry) : SysState :=
  if entry.isDirectory then
    { s with app := appReducer s.app (.SET_PREVIEW "" false) }
  else
    { s with pendingPreview := s.pendingPreview ++ [entry.path] }

/-- The rest of `loadPreview` (App.tsx line 105): dispatches `SET_PREVIEW`
with the loaded `{content, isBinary}` unconditionally — the currently selected
entry is not consulted. `pfs` maps a path to its preview result. -/
def resolvePreview (pfs : String → String × Bool) (s : SysState) (p : String) : SysState :=
  if p ∈ s.pendingPreview then
    { s with
      app := appReducer s.app (.SET_PREVIEW (pfs p).1 (pfs p).2)
      pendingPreview := s.pendingPreview.erase p }
  else s

/-!
The paste orchestrator, from the `paste` branch of the `useInput` handler
(App.tsx lines 287-315). The filesystem collaborators `copyFile`/`moveFile`
are environments `String → String → Except String Unit` (`.error` embeds a
rejected promise). `path.join(dir, name)` is embedded for the POSIX case.
-/

/-- `path.join(dir, name)` (POSIX). -/
def pathJoin (dir name : String) : String :=
  dir ++ "/" ++ name

/-- The `for (const file of files)` loop of the paste handler inside its
single `try`: each iteration either completes or throws, and the first throw
aborts the remaining iterations. Returns the number of operations that
completed and the error of the first failing one, if any. -/
def pasteRun (doOp : String → String → Except String Unit) (cur : String) :
    List FileEntry → Nat × Option String
  | [] => (0, none)
  | f :: rest =>
    match doOp f.path (pathJoin cur f.name) with
    | .ok _ =>
      let r := pasteRun doOp cur rest
      (r.1 + 1, r.2)
    | .error e => (0, some e)

/-- Which filesystem primitive one iteration of the paste loop calls:
`copyFile` for a copy clipboard, `moveFile` for a cut clipboard. -/
def clipOpRun (copyF moveF : String → String → Except String Unit) :
    ClipOp → String → String → Except String Unit
  | .copy => copyF
  | .cut => moveF

/-- The paste handler (App.tsx lines 287-315) acting on the session state:
runs the loop over the captured clipboard entries; on full success clears the
clipboard (cut only) and sets the success message; on a throw the `catch`
sets the error message, leaving the clipboard as it was. The trailing
`refresh()` issues a navigate and is modelled by `startRefresh` separately. -/
def pasteHandler (copyF moveF : String → String → Except String Unit)
    (s : AppState) : AppState :=
  match s.clipboard with
  | none => s
  | some cb =>
    let run := pasteRun (clipOpRun copyF moveF cb.operation) s.currentPath cb.files
    match run.2 with
    | none =>
      let s1 := if cb.operation = ClipOp.cut then appReducer s (.SET_CLIPBOARD none) else s
      appReducer s1 (.SET_MESSAGE (some
        ((if cb.operation = ClipOp.copy then "Copied " else "Moved ")
          ++ toString cb.files.length ++ " file(s)")))
    | some e => appReducer s (.SET_ERROR (some e))

/-!
The directory listing sort, from `readDirectory` in `src/utils/fileSystem.ts`
(lines 290-296). `localeCompare` on the lowercased names is embedded as the
three-way comparison of Mathlib's linear order on `String`; the stable
`Array.prototype.sort` is embedded as insertion sort by the comparator.
-/

/-- `a.localeCompare(b)` embedded as the sign of lexicographic comparison of
the character sequences. -/
def localeCompare (a b : List Char) : Int :=
  if a < b then -1 else if b < a then 1 else 0

/-- The sort comparator of `readDirectory`: directories first, then
`a.name.toLowerCase().localeCompare(b.name.toLowerCase())`. -/
def entrySortCmp (a b : FileEntry) : Int :=
  if a.isDirectory && !b.isDirectory then -1
  else if !a.isDirectory && b.isDirectory then 1
  else localeCompare (strLower a.name).data (strLower b.name).data

/-- The "keep `a` no later than `b`" relation induced by the comparator. -/
def entryLE (a b : FileEntry) : Prop :=
  entrySortCmp a b ≤ 0

instance : DecidableRel entryLE := fun a b =>
  inferInstanceAs (Decidable (entrySortCmp a b ≤ 0))

/-- `readDirectory(dirPath, showHidden)` after the I/O: `items` is the raw
entry list already carrying `isHidden`; the code skips hidden entries when
`showHidden` is false (fileSystem.ts line 257) and sorts by `entrySortCmp`
(lines 290-296). -/
def readDirectory (items : List FileEntry) (showHidden : Bool) : List FileEntry :=
  (items.filter (fun e => !e.isHidden || showHidden)).insertionSort entryLE

/-!
The command interpreter, from `executeCommand` in `src/commands/index.ts`
(lines 295-325). A command handler is `action : args → σ → Except × σ`: the
`Except` error embeds a thrown/rejected handler, and the state component
carries whatever context mutations the handler performed before returning or
throwing (the real handlers mutate through `context.dispatch`/`navigate`,
which is why the registry is kept as a parameter: the concrete handlers are
I/O-bound). -/

/-- A command outcome, from the `CommandResult` interface in
`src/commands/index.ts`. -/
structure CommandResult where
  success : Bool
  message : Option String := none
  error : Option String := none
deriving DecidableEq, Repr

/-- A registry entry, from the `Command` interface in `src/commands/index.ts`. -/
structure Command (σ : Type) where
  name : String
  aliases : List String
  action : List String → σ → Except String CommandResult × σ

/-- JavaScript `input.trim()`, embedded characterwise. -/
def strTrim (s : String) : String :=
  ⟨((s.data.dropWhile Char.isWhitespace).reverse.dropWhile Char.isWhitespace).reverse⟩

/-- Accumulator pass for whitespace splitting: `acc` holds the reversed
characters of the token being read. -/
def splitWsAux : List Char → List Char → List String
  | [], acc => if acc.isEmpty then [] else [⟨acc.reverse⟩]
  | c :: rest, acc =>
    if c.isWhitespace then
      (if acc.isEmpty then [] else [⟨acc.reverse⟩]) ++ splitWsAux rest []
    else splitWsAux rest (c :: acc)

/-- `trimmed.split(/\s+/)`: splitting on whitespace runs, no empty tokens for
a trimmed input. -/
def splitWs (s : String) : List String :=
  splitWsAux s.data []

/-- Whether a registry command matches the lowercased leading token
(`cmd.name === cmdName || cmd.aliases.includes(cmdName)`). -/
def cmdMatches (cmdName : String) (cmd : Command σ) : Bool :=
  cmd.name == cmdName || cmd.aliases.contains cmdName

/-- `executeCommand(input, context)` (commands/index.ts lines 295-325):
trim, reject empty input, split on whitespace, lowercase the first token,
look it up in the registry, and run the handler inside a `try`/`catch` that
converts any thrown error into a `{success: false, error}` result. -/
def executeCommand (commands : List (Command σ)) (input : String) (st : σ) :
    CommandResult × σ :=
  if strTrim input = "" then ({ success := false, error := some "No command entered" }, st)
  else
    match splitWs (strTrim input) with
    | [] =>
      -- unreachable: splitting a nonempty trimmed string yields a token
      ({ success := false, error := some "No command entered" }, st)
    | w :: args =>
      match commands.find? (cmdMatches (strLower w)) with
      | none => ({ success := false, error := some ("Unknown command: " ++ strLower w) }, st)
      | some cmd =>
        match cmd.action args st with
        | (.ok r, st1) => (r, st1)
        | (.error e, st1) => ({ success := false, error := some e }, st1)

/-!
Selection movement, from the `useInput` handler in `src/App.tsx`
(lines 148-188). `visibleHeight` is `contentHeight - 2` computed from the
terminal geometry; it is kept as an `Int` parameter because the code does
unguarded subtraction on it.
-/

/-- The four cursor movement branches of the input handler. -/
inductive MoveAction where
  | down | up | pageDown | pageUp
deriving DecidableEq, Repr

/-- One movement branch (App.tsx lines 148-188), replaying the
`SET_SELECTED_INDEX` / `SET_SCROLL_OFFSET` dispatches it performs. -/
def applyMove (visibleHeight : Int) (s : AppState) : MoveAction → AppState
  | .down =>
    let newIndex := min (s.selectedIndex + 1) ((s.filteredEntries.length : Int) - 1)
    let s1 := appReducer s (.SET_SELECTED_INDEX newIndex)
    if newIndex ≥ s.scrollOffset + visibleHeight then
      appReducer s1 (.SET_SCROLL_OFFSET (newIndex - visibleHeight + 1))
    else s1
  | .up =>
    let newIndex := max (s.selectedIndex - 1) 0
    let s1 := appReducer s (.SET_SELECTED_INDEX newIndex)
    if newIndex < s.scrollOffset then
      appReducer s1 (.SET_SCROLL_OFFSET newIndex)
    else s1
  | .pageDown =>
    let newIndex := min (s.selectedIndex + visibleHeight) ((s.filteredEntries.length : Int) - 1)
    let s1 := appReducer s (.SET_SELECTED_INDEX newIndex)
    appReducer s1 (.SET_SCROLL_OFFSET (max 0 (newIndex - visibleHeight + 1)))
  | .pageUp =>
    let newIndex := max (s.selectedIndex - visibleHeight) 0
    let s1 := appReducer s (.SET_SELECTED_INDEX newIndex)
    appReducer s1 (.SET_SCROLL_OFFSET newIndex)

/-- A sequence of movement branches applied in order. -/
def applyMoves (visibleHeight : Int) (s : AppState) : List MoveAction → AppState
  | [] => s
  | m :: ms => applyMoves visibleHeight (applyMove visibleHeight s m) ms

/-!
Order facts about the `readDirectory` comparator.
-/

/-- The ordering `readDirectory` is specified to produce: directories before
files, case-insensitive name order within each group. -/
def specLE (a b : FileEntry) : Prop :=
  (a.isDirectory = true ∧ b.isDirectory = false) ∨
  (a.isDirectory = b.isDirectory ∧ (strLower a.name).data ≤ (strLower b.name).data)

theorem localeCompare_nonpos (a b : List Char) : localeCompare a b ≤ 0 ↔ a ≤ b := by
  unfold localeCompare
  split_ifs with h1 h2
  · simp [le_of_lt h1]
  · simp [not_le.mpr h2]
  · simp [not_lt.mp h2]

theorem entryLE_iff (a b : FileEntry) : entryLE a b ↔ specLE a b := by
  unfold entryLE entrySortCmp specLE
  cases ha : a.isDirectory <;> cases hb : b.isDirectory <;>
    simp [localeCompare_nonpos]

instance : IsTotal FileEntry entryLE := by
  constructor
  intro a b
  rw [entryLE_iff, entryLE_iff]
  unfold specLE
  rcases le_total (strLower a.name).data (strLower b.name).data with h | h <;>
    cases ha : a.isDirectory <;> cases hb : b.isDirectory <;>
      simp only [ha, hb] <;> tauto

instance : IsTrans FileEntry entryLE := by
  constructor
  intro a b c hab hbc
  rw [entryLE_iff] at hab hbc ⊢
  unfold specLE at hab hbc ⊢
  rcases hab with ⟨ha, hb⟩ | ⟨hab, hnab⟩ <;> rcases hbc with ⟨hb2, hc⟩ | ⟨hbc, hnbc⟩
  · rw [hb] at hb2
    exact absurd hb2 (by simp)
  · exact Or.inl ⟨ha, hbc ▸ hb⟩
  · exact Or.inl ⟨hab ▸ hb2, hc⟩
  · exact Or.inr ⟨hab.trans hbc, hnab.trans hnbc⟩

/-- Dispatching an action to the reducer inside the coordinator state. -/
def dispatchSys (s : SysState) (a : Action) : SysState :=
  { s with app := appReducer s.app a }

/-!
Supporting lemmas.
-/

theorem containsSub_iff (hay need : List Char) :
    containsSub hay need = true ↔ need <:+: hay := by
  induction hay with
  | nil => simp [containsSub, List.infix_nil]
  | cons c t ih =>
    simp [containsSub, List.infix_cons_iff, List.isPrefixOf_iff_prefix, ih]

theorem strIncludes_iff (s sub : String) :
    strIncludes s sub = true ↔ sub.data <:+: s.data :=
  containsSub_iff s.data sub.data

/-- The paste loop stops at the first failing file: the files after it are
never attempted (they do not influence the outcome), the completed count is
the number of files before the failure, and the reported error is the first
failure's error. -/
theorem pasteRun_append_error (doOp : String → String → Except String Unit)
    (cur : String) (pre : List FileEntry) (f : FileEntry) (rest : List FileEntry)
    (e : String)
    (hpre : ∀ g ∈ pre, doOp g.path (pathJoin cur g.name) = .ok ())
    (hf : doOp f.path (pathJoin cur f.name) = .error e) :
    pasteRun doOp cur (pre ++ f :: rest) = (pre.length, some e) := by
  induction pre with
  | nil => simp [pasteRun, hf]
  | cons g gs ih =>
    have hg := hpre g (by simp)
    have hrec := ih (fun x hx => hpre x (by simp [hx]))
    simp [pasteRun, hg, hrec]

/-- A movement branch never changes the filtered view. -/
theorem applyMove_filteredEntries (vh : Int) (s : AppState) (m : MoveAction) :
    (applyMove vh s m).filteredEntries = s.filteredEntries := by
  cases m <;> unfold applyMove <;> dsimp only <;>
    first
      | (split <;> rfl)
      | rfl

/-- A movement branch keeps the cursor in `[0, len-1]` provided the view is
nonempty, the page size is nonnegative and the cursor starts in range. -/
theorem applyMove_selectedIndex_bounds (vh : Int) (s : AppState) (m : MoveAction)
    (hvh : 0 ≤ vh) (hne : s.filteredEntries ≠ [])
    (h0 : 0 ≤ s.selectedIndex)
    (h1 : s.selectedIndex ≤ (s.filteredEntries.length : Int) - 1) :
    0 ≤ (applyMove vh s m).selectedIndex ∧
      (applyMove vh s m).selectedIndex ≤ (s.filteredEntries.length : Int) - 1 := by
  have hlen : (1 : Int) ≤ (s.filteredEntries.length : Int) := by
    have := List.length_pos.mpr hne
    omega
  cases m <;> unfold applyMove <;> dsimp only <;>
    first
      | (constructor <;> (split <;> (simp only [appReducer]; omega)))
      | (constructor <;> (simp only [appReducer]; omega))

/-!
Concrete fixtures used by counterexamples and witnesses.
-/

/-- A filesystem environment with two known directories. -/
def demoFs : String → List FileEntry := fun p =>
  if p = "/a" then [⟨"x.txt", "/a/x.txt", false, false, false⟩]
  else if p = "/b" then [⟨"y.txt", "/b/y.txt", false, false, false⟩]
  else []

/-- Coordinator state fresh after startup. -/
def sys0 : SysState :=
  { app := createInitialState "/start", pendingDir := [], pendingGit := [], pendingPreview := [] }

/-- The trace `navigate("/a")`, `navigate("/b")`, B resolves, then A's stale
read resolves last. -/
def c1Trace : SysState :=
  resolveNavigate demoFs
    (resolveNavigate demoFs
      (issueNavigate (issueNavigate sys0 "/a") "/b") "/b") "/a"

/-!
## C1 — directory-read race guard
-/

/-- C1 counterexample: after `navigate("/a")` then `navigate("/b")`, letting
B's read resolve first and A's read resolve last, the session ends with
`currentPath = "/a"` and A's listing — A's stale result is committed, not
discarded, contradicting the claim that `currentPath` would still equal B. -/
theorem c1_counterexample :
    c1Trace.app.currentPath = "/a" ∧
    c1Trace.app.currentPath ≠ "/b" ∧
    c1Trace.app.entries = demoFs "/a" ∧
    demoFs "/a" ≠ demoFs "/b" := by decide

/-- C1 (amended): `loadDirectory` performs no staleness check: whenever an
in-flight directory read for `p` resolves, its result is committed
unconditionally — `currentPath` and the entry lists become `p`'s regardless
of any newer request. The most recently *completed* (not most recently
*requested*) navigation wins. -/
theorem c1_amended (fs : String → List FileEntry) (s : SysState) (p : String)
    (h : p ∈ s.pendingDir) :
    (resolveNavigate fs s p).app.currentPath = p ∧
    (resolveNavigate fs s p).app.entries = fs p ∧
    (resolveNavigate fs s p).app.filteredEntries = fs p ∧
    (resolveNavigate fs s p).app.selectedIndex = 0 := by
  unfold resolveNavigate
  rw [if_pos h]
  exact ⟨rfl, rfl, rfl, rfl⟩

/-- C1 witness: the amended theorem applied to a single resolving navigation. -/
theorem c1_amended_witness :
    (resolveNavigate demoFs (issueNavigate sys0 "/a") "/a").app.currentPath = "/a" :=
  (c1_amended demoFs (issueNavigate sys0 "/a") "/a" (by decide)).1

/-!
## C5 — preview race guard
-/

/-- Two plain files for the preview trace. -/
def gOne : FileEntry := ⟨"one.txt", "/p/one.txt", false, false, false⟩

def gTwo : FileEntry := ⟨"two.txt", "/p/two.txt", false, false, false⟩

/-- Preview environment: distinct contents for the two files. -/
def pfsDemo : String → String × Bool := fun p =>
  if p = "/p/one.txt" then ("ONE", false) else ("TWO", false)

/-- Session showing both files, cursor on the first. -/
def c5sys0 : SysState :=
  { app := { createInitialState "/p" with entries := [gOne, gTwo], filteredEntries := [gOne, gTwo] },
    pendingDir := [], pendingGit := [], pendingPreview := [] }

/-- The trace: preview of `gOne` is issued, the cursor moves to `gTwo` and
its preview is issued, `gTwo`'s preview resolves, then `gOne`'s stale
preview resolves last. -/
def c5Trace : SysState :=
  resolvePreview pfsDemo
    (resolvePreview pfsDemo
      (issuePreview
        (dispatchSys (issuePreview c5sys0 gOne) (.SET_SELECTED_INDEX 1))
        gTwo)
      "/p/two.txt")
    "/p/one.txt"

/-- C5 counterexample: with the selection already moved to `gTwo` (index 1),
the stale preview response for `gOne` is still applied: the displayed
preview is "ONE" although the selected entry's preview is "TWO" — the
response for a no-longer-selected entry is not discarded. -/
theorem c5_counterexample :
    c5Trace.app.selectedIndex = 1 ∧
    c5Trace.app.filteredEntries = [gOne, gTwo] ∧
    c5Trace.app.previewContent = "ONE" ∧
    (pfsDemo gTwo.path).1 = "TWO" ∧
    c5Trace.app.previewContent ≠ (pfsDemo gTwo.path).1 := by decide

/-- C5 (amended): `loadPreview` applies a completed preview result
unconditionally — whenever an in-flight preview for path `p` resolves, the
preview state becomes `p`'s result (with scroll reset), without comparing
`p` against the currently selected entry. The most recently completed load
wins. -/
theorem c5_amended (pfs : String → String × Bool) (s : SysState) (p : String)
    (h : p ∈ s.pendingPreview) :
    (resolvePreview pfs s p).app.previewContent = (pfs p).1 ∧
    (resolvePreview pfs s p).app.previewIsBinary = (pfs p).2 ∧
    (resolvePreview pfs s p).app.previewScrollOffset = 0 ∧
    (resolvePreview pfs s p).app.selectedIndex = s.app.selectedIndex := by
  unfold resolvePreview
  rw [if_pos h]
  exact ⟨rfl, rfl, rfl, rfl⟩

/-- C5 witness: the amended theorem applied to a single resolving preview. -/
theorem c5_amended_witness :
    (resolvePreview pfsDemo (issuePreview c5sys0 gOne) "/p/one.txt").app.previewContent = "ONE" :=
  (c5_amended pfsDemo (issuePreview c5sys0 gOne) "/p/one.txt" (by decide)).1

/-!
## C6 — refresh and the multi-selection set
-/

/-- C6 (amended): a reload (`refresh()` = `loadDirectory(currentPath)`)
leaves `selectedFiles` entirely untouched, at issue time and at commit time:
membership is preserved for every path, whether or not it is still present
in the reloaded listing. Paths absent from the new listing are *not*
dropped. -/
theorem c6_amended (fs : String → List FileEntry) (s : SysState) (p : String) :
    (startRefresh s).app.selectedFiles = s.app.selectedFiles ∧
    (issueNavigate s p).app.selectedFiles = s.app.selectedFiles ∧
    (resolveNavigate fs s p).app.selectedFiles = s.app.selectedFiles := by
  refine ⟨rfl, rfl, ?_⟩
  unfold resolveNavigate
  split <;> rfl

/-- Session with a selected path that the reloaded listing no longer
contains, and an in-flight reload of `/a`. -/
def c6sys : SysState :=
  { app := { createInitialState "/a" with selectedFiles := {"/a/gone.txt"} },
    pendingDir := ["/a"], pendingGit := [], pendingPreview := [] }

/-- C6 counterexample: after the reload of `/a` commits (new listing
`[x.txt]`), the stale path `/a/gone.txt` is still a member of
`selectedFiles` although no entry of the new listing carries it — the claim
that absent paths are dropped fails. -/
theorem c6_counterexample :
    "/a/gone.txt" ∈ (resolveNavigate demoFs c6sys "/a").app.selectedFiles ∧
    ((resolveNavigate demoFs c6sys "/a").app.entries.map FileEntry.path) = ["/a/x.txt"] ∧
    "/a/gone.txt" ∉ ((resolveNavigate demoFs c6sys "/a").app.entries.map FileEntry.path) := by
  decide

/-!
## C2 — paste batch error handling
-/

/-- C2 (amended): a failure on one file aborts the whole paste batch: the
loop completes exactly the files before the first failing one, the files
after it are never attempted (the result does not depend on them), the
single error of the failing file is reported via `SET_ERROR` (no aggregate
count), and the clipboard is left exactly as it was — in particular a
cut-paste with a failure does *not* clear the clipboard. -/
theorem c2_amended (copyF moveF : String → String → Except String Unit)
    (s : AppState) (cb : ClipboardData) (pre : List FileEntry) (f : FileEntry)
    (rest : List FileEntry) (e : String)
    (hcb : s.clipboard = some cb)
    (hfiles : cb.files = pre ++ f :: rest)
    (hpre : ∀ g ∈ pre,
      clipOpRun copyF moveF cb.operation g.path (pathJoin s.currentPath g.name) = .ok ())
    (hf : clipOpRun copyF moveF cb.operation f.path (pathJoin s.currentPath f.name) = .error e) :
    pasteRun (clipOpRun copyF moveF cb.operation) s.currentPath cb.files = (pre.length, some e) ∧
    (pasteHandler copyF moveF s).clipboard = s.clipboard ∧
    (pasteHandler copyF moveF s).error = some e ∧
    (pasteHandler copyF moveF s).message = s.message := by
  have hrun := pasteRun_append_error (clipOpRun copyF moveF cb.operation)
    s.currentPath pre f rest e hpre hf
  have hrun2 : pasteRun (clipOpRun copyF moveF cb.operation) s.currentPath cb.files
      = (pre.length, some e) := by rw [hfiles]; exact hrun
  refine ⟨hrun2, ?_, ?_, ?_⟩ <;>
    simp [pasteHandler, hcb, hrun2, appReducer]

/-- Filesystem environment in which pasting into `/d` collides on `f2.txt`. -/
def collideOp : String → String → Except String Unit := fun _ dest =>
  if dest = "/d/f2.txt" then .error "EEXIST" else .ok ()

def fOne : FileEntry := ⟨"f1.txt", "/s/f1.txt", false, false, false⟩

def fTwo : FileEntry := ⟨"f2.txt", "/s/f2.txt", false, false, false⟩

def fThree : FileEntry := ⟨"f3.txt", "/s/f3.txt", false, false, false⟩

/-- Session in `/d` with three copied files on the clipboard. -/
def c2CopyState : AppState :=
  { createInitialState "/d" with
    clipboard := some { operation := .copy, files := [fOne, fTwo, fThree] } }

/-- Session in `/d` with the same three files cut. -/
def c2CutState : AppState :=
  { createInitialState "/d" with
    clipboard := some { operation := .cut, files := [fOne, fTwo, fThree] } }

/-- C2 counterexample: pasting 3 copied files where the destination collides
on the second completes exactly 1 operation — not the claimed 2 — because
the loop aborts at the first failure; and after the analogous cut-paste the
clipboard is *not* cleared. -/
theorem c2_counterexample :
    pasteRun (clipOpRun collideOp collideOp ClipOp.copy) "/d" [fOne, fTwo, fThree]
      = (1, some "EEXIST") ∧
    (pasteRun (clipOpRun collideOp collideOp ClipOp.copy) "/d" [fOne, fTwo, fThree]).1 ≠ 2 ∧
    (pasteHandler collideOp collideOp c2CopyState).error = some "EEXIST" ∧
    (pasteHandler collideOp collideOp c2CutState).clipboard ≠ none := by decide

/-- C2 witness: the amended theorem applied to the colliding batch. -/
theorem c2_amended_witness :
    pasteRun (clipOpRun collideOp collideOp ClipOp.copy) "/d" [fOne, fTwo, fThree]
      = (1, some "EEXIST") ∧
    (pasteHandler collideOp collideOp c2CopyState).clipboard = c2CopyState.clipboard :=
  have h := c2_amended collideOp collideOp c2CopyState
    { operation := .copy, files := [fOne, fTwo, fThree] }
    [fOne] fTwo [fThree] "EEXIST" rfl rfl
    (by intro g hg; rw [List.mem_singleton.mp hg]; rfl) (by rfl)
  ⟨by simpa using h.1, h.2.1⟩

/-!
## C3 — selection bounds
-/

/-- C3 (amended): provided the filtered view is nonempty, the page size is
nonnegative and the cursor starts within `[0, len-1]`, every sequence of
movement actions (up, down, page up, page down) keeps `selectedIndex` within
`[0, len-1]` of the (unchanged) filtered view. (With an *empty* view this
fails: a down or page-down move sets the index to `-1`, not `0`.) -/
theorem c3_amended (vh : Int) (s : AppState) (ms : List MoveAction)
    (hvh : 0 ≤ vh) (hne : s.filteredEntries ≠ [])
    (h0 : 0 ≤ s.selectedIndex)
    (h1 : s.selectedIndex ≤ (s.filteredEntries.length : Int) - 1) :
    (applyMoves vh s ms).filteredEntries = s.filteredEntries ∧
    0 ≤ (applyMoves vh s ms).selectedIndex ∧
    (applyMoves vh s ms).selectedIndex ≤
      ((applyMoves vh s ms).filteredEntries.length : Int) - 1 := by
  induction ms generalizing s with
  | nil => exact ⟨rfl, h0, h1⟩
  | cons m ms ih =>
    have hfe := applyMove_filteredEntries vh s m
    have hb := applyMove_selectedIndex_bounds vh s m hvh hne h0 h1
    have hrec := ih (applyMove vh s m) (by rw [hfe]; exact hne) hb.1
      (by rw [hfe]; exact hb.2)
    exact ⟨by simpa [applyMoves, hfe] using hrec.1,
      by simpa [applyMoves] using hrec.2.1,
      by simpa [applyMoves] using hrec.2.2⟩

/-- Nonempty session for the C3 witness. -/
def c3s : AppState :=
  { createInitialState "/p" with
    entries := [gOne, gTwo], filteredEntries := [gOne, gTwo] }

/-- C3 witness: the amended theorem applied to a concrete move sequence. -/
theorem c3_amended_witness :
    0 ≤ (applyMoves 5 c3s [MoveAction.down, MoveAction.down, MoveAction.pageUp]).selectedIndex ∧
    (applyMoves 5 c3s [MoveAction.down, MoveAction.down, MoveAction.pageUp]).selectedIndex ≤
      ((applyMoves 5 c3s [MoveAction.down, MoveAction.down, MoveAction.pageUp]).filteredEntries.length : Int) - 1 :=
  (c3_amended 5 c3s [MoveAction.down, MoveAction.down, MoveAction.pageUp]
    (by decide) (by decide) (by decide) (by decide)).2

/-- C3 counterexample: with an empty filtered view a single down move sets
`selectedIndex` to `min(0+1, 0-1) = -1`, violating both the claimed range
`[0, len-1]` and the claimed value `0` for the empty view. -/
theorem c3_counterexample :
    (applyMove 10 (createInitialState "/e") MoveAction.down).filteredEntries = [] ∧
    (applyMove 10 (createInitialState "/e") MoveAction.down).selectedIndex = -1 ∧
    (applyMove 10 (createInitialState "/e") MoveAction.down).selectedIndex ≠ 0 := by decide

/-!
## C4 — empty query vs filtered view
-/

/-- C4 (amended): dispatching `SET_SEARCH_QUERY ""` restores
`filteredEntries = entries` (this is the cancel path, which clears the query
before leaving search mode); but `SET_MODE normal` on its own clears
`searchQuery` *without* recomputing `filteredEntries`, so leaving search mode
by submit yields a state with an empty query whose view is still filtered. -/
theorem c4_amended (s : AppState) :
    (appReducer s (.SET_SEARCH_QUERY "")).filteredEntries = s.entries ∧
    (appReducer s (.SET_SEARCH_QUERY "")).searchQuery = "" ∧
    (appReducer s (.SET_MODE .normal)).searchQuery = "" ∧
    (appReducer s (.SET_MODE .normal)).filteredEntries = s.filteredEntries := by
  exact ⟨rfl, rfl, rfl, rfl⟩

def entAlpha : FileEntry := ⟨"alpha.txt", "/p/alpha.txt", false, false, false⟩

/-- The reachable state: enter a directory, search for "zzz" (matching
nothing), then leave search mode by submit (`SET_MODE normal` only). -/
def c4s : AppState :=
  appReducer
    (appReducer
      (appReducer (createInitialState "/p") (.SET_PATH "/p" [entAlpha]))
      (.SET_SEARCH_QUERY "zzz"))
    (.SET_MODE .normal)

/-- C4 counterexample: a reachable state with no active search filter
(`searchQuery = ""`) in which `filteredEntries` (empty) differs from
`entries` — the transition that cleared the predicate did not restore the
unfiltered view. -/
theorem c4_counterexample :
    c4s.searchQuery = "" ∧
    c4s.entries = [entAlpha] ∧
    c4s.filteredEntries = [] ∧
    c4s.filteredEntries ≠ c4s.entries := by decide

/-!
## C7 — setSearchQuery
-/

/-- C7 (amended): `SET_SEARCH_QUERY query` recomputes `filteredEntries` as
exactly the subsequence of `entries` whose lowercased name has the lowercased
query as a contiguous substring, resets `selectedIndex` to 0, and with the
empty query restores `filteredEntries = entries` exactly — but it leaves
`scrollOffset` unchanged rather than resetting it to 0. -/
theorem c7_amended (s : AppState) (query : String) :
    ((appReducer s (.SET_SEARCH_QUERY query)).filteredEntries.Sublist s.entries) ∧
    (∀ e, e ∈ (appReducer s (.SET_SEARCH_QUERY query)).filteredEntries ↔
      e ∈ s.entries ∧ (query = "" ∨ (strLower query).data <:+: (strLower e.name).data)) ∧
    (appReducer s (.SET_SEARCH_QUERY query)).selectedIndex = 0 ∧
    (appReducer s (.SET_SEARCH_QUERY query)).scrollOffset = s.scrollOffset ∧
    (query = "" → (appReducer s (.SET_SEARCH_QUERY query)).filteredEntries = s.entries) := by
  by_cases hq : query = ""
  · subst hq
    refine ⟨?_, ?_, rfl, rfl, fun _ => rfl⟩
    · simp only [appReducer, if_pos rfl]
      exact List.Sublist.refl _
    · intro e
      simp [appReducer]
  · refine ⟨?_, ?_, rfl, rfl, fun h => absurd h hq⟩
    · simp only [appReducer, if_neg hq]
      exact List.filter_sublist _
    · intro e
      simp [appReducer, if_neg hq, List.mem_filter, nameMatches, strIncludes_iff, hq]

/-- Session with a nonzero scroll for the C7 counterexample. -/
def c7s : AppState :=
  { createInitialState "/p" with
    entries := [entAlpha], filteredEntries := [entAlpha], scrollOffset := 5 }

/-- C7 counterexample: `SET_SEARCH_QUERY "alp"` resets `selectedIndex` to 0
but leaves `scrollOffset` at 5 — the claimed reset of `scrollOffset` to 0
does not happen. -/
theorem c7_counterexample :
    (appReducer c7s (Action.SET_SEARCH_QUERY "alp")).scrollOffset = 5 ∧
    (appReducer c7s (Action.SET_SEARCH_QUERY "alp")).scrollOffset ≠ 0 ∧
    (appReducer c7s (Action.SET_SEARCH_QUERY "alp")).selectedIndex = 0 ∧
    (appReducer c7s (Action.SET_SEARCH_QUERY "alp")).filteredEntries = [entAlpha] := by decide

/-- C7 witness: the amended theorem applied with the empty query. -/
theorem c7_amended_witness :
    (appReducer c7s (Action.SET_SEARCH_QUERY "")).filteredEntries = c7s.entries :=
  (c7_amended c7s "").2.2.2.2 rfl

/-!
## C8 — directory listing order
-/

/-- The scenario listing of `/tmp/x` in on-disk order: `b.txt`, `A`
(a directory), `a.txt`. -/
def c8Items : List FileEntry :=
  [⟨"b.txt", "/tmp/x/b.txt", false, false, false⟩,
   ⟨"A", "/tmp/x/A", true, false, false⟩,
   ⟨"a.txt", "/tmp/x/a.txt", false, false, false⟩]

/-- C8: `readDirectory` returns its entries sorted directories-first, then
in case-insensitive name order within each group; on the scenario listing
`["b.txt", "A", "a.txt"]` (A a directory) it yields the order
`["A", "a.txt", "b.txt"]`. -/
theorem c8_sorted :
    (∀ (items : List FileEntry) (sh : Bool), List.Sorted specLE (readDirectory items sh)) ∧
    (readDirectory c8Items true).map FileEntry.name = ["A", "a.txt", "b.txt"] := by
  constructor
  · intro items sh
    have h := List.sorted_insertionSort entryLE (items.filter (fun e => !e.isHidden || sh))
    exact List.Pairwise.imp (fun hab => (entryLE_iff _ _).mp hab) h
  · decide

/-!
## C9 — the command interpreter
-/

/-- C9: for an input line whose trimmed form is nonempty and splits into a
leading token `w` and arguments, `executeCommand` (1) returns the
`Unknown command` error result and an untouched context when no registry
command's name or aliases match the lowercased token, and (2) converts a
handler that throws `e` into the normal result `{success := false, error := e}`
rather than propagating the fault. -/
theorem c9_total {σ : Type} (commands : List (Command σ)) (input : String) (st : σ)
    (w : String) (args : List String)
    (hsplit : splitWs (strTrim input) = w :: args) (hne : ¬ strTrim input = "") :
    (commands.find? (cmdMatches (strLower w)) = none →
      executeCommand commands input st =
        ({ success := false, error := some ("Unknown command: " ++ strLower w) }, st)) ∧
    (∀ (cmd : Command σ) (e : String) (st1 : σ),
      commands.find? (cmdMatches (strLower w)) = some cmd →
      cmd.action args st = (.error e, st1) →
      executeCommand commands input st = ({ success := false, error := some e }, st1)) := by
  constructor
  · intro hnone
    simp only [executeCommand, if_neg hne, hsplit, hnone]
  · intro cmd e st1 hfind hact
    simp only [executeCommand, if_neg hne, hsplit, hfind, hact]

/-- A registry command whose handler mutates the context then throws. -/
def boomCmd : Command Nat :=
  { name := "boom", aliases := ["bmm"], action := fun _ n => (.error "kaput", n + 1) }

/-- C9 witness: the theorem applied to an unknown token on an empty registry
and to a throwing handler: the unknown command touches nothing; the thrown
error comes back as a normal failed result. -/
theorem c9_total_witness :
    executeCommand ([] : List (Command Nat)) "nope arg" 0 =
      ({ success := false, error := some "Unknown command: nope" }, 0) ∧
    executeCommand [boomCmd] " BOOM x " 0 =
      ({ success := false, error := some "kaput" }, 1) := by
  constructor
  · exact (c9_total [] "nope arg" 0 "nope" ["arg"] (by decide) (by decide)).1 rfl
  · exact (c9_total [boomCmd] " BOOM x " 0 "BOOM" ["x"] (by decide) (by decide)).2
      boomCmd "kaput" 1 rfl rfl

/-!
## C10 — selectAll semantics
-/

/-- C10: `SELECT_ALL` replaces `selectedFiles` with exactly the paths of the
currently visible `filteredEntries`: membership afterwards holds exactly for
paths of visible entries, so any previously selected path carried by no
visible entry (hidden by a filter, or from another directory) is dropped. -/
theorem c10_selectAll (s : AppState) :
    ((appReducer s .SELECT_ALL).selectedFiles = (s.filteredEntries.map FileEntry.path).toFinset) ∧
    (∀ q, q ∈ (appReducer s .SELECT_ALL).selectedFiles ↔ ∃ e ∈ s.filteredEntries, e.path = q) ∧
    (∀ q ∈ s.selectedFiles, (∀ e ∈ s.filteredEntries, e.path ≠ q) →
      q ∉ (appReducer s .SELECT_ALL).selectedFiles) := by
  refine ⟨rfl, ?_, ?_⟩
  · intro q
    simp [appReducer]
  · intro q hq hnone
    simp only [appReducer, List.mem_toFinset, List.mem_map]
    rintro ⟨e, he, hpath⟩
    exact hnone e he hpath

/-- Session with a stale selection and a filtered view of one entry. -/
def c10s : AppState :=
  { createInitialState "/p" with
    filteredEntries := [gOne], selectedFiles := {"/p/stale.txt"} }

/-- C10 witness: the theorem applied to a state whose previous selection is
invisible: that path is gone after `SELECT_ALL`. -/
theorem c10_selectAll_witness :
    "/p/stale.txt" ∉ (appReducer c10s Action.SELECT_ALL).selectedFiles :=
  (c10_selectAll c10s).2.2 "/p/stale.txt" (by decide) (by decide)

end Navit
